import Mathlib

/-!
Shallow embedding of the p2pME distributed node (src/js/blockchain.js,
src/js/fileTransfer.js) and proofs about its ledger, consensus and file
transfer behaviour.

JS `Map`s are modelled as insertion-ordered association lists, JS `Set`s as
insertion-ordered duplicate-free lists.  Machine integers are `Nat`/`Int`
(no overflow is relevant to any statement here).  Methods that can throw
are modelled with `Except`, asynchronous crypto results with an explicit
"promise truthiness" marker (see `jsPromiseTruthy`).
-/

namespace P2pME

/-! ## JS collection primitives -/

/-- JS `Map.prototype.set`: replace in place when the key exists (keeping its
insertion position), otherwise append at the end. -/
def mapSet {α β : Type} [BEq α] : List (α × β) → α → β → List (α × β)
  | [], k, v => [(k, v)]
  | (k', v') :: rest, k, v =>
    if k' == k then (k, v) :: rest else (k', v') :: mapSet rest k v

/-- JS `Map.prototype.delete` (keys are unique in every state the code builds). -/
def mapDelete {α β : Type} [BEq α] (m : List (α × β)) (k : α) : List (α × β) :=
  m.filter (fun p => !(p.1 == k))

/-- JS `Map.prototype.size` (keys are unique in every state the code builds). -/
def mapSize {α β : Type} (m : List (α × β)) : Nat := m.length

/-- JS `Set.prototype.add`: append if absent. -/
def setAdd (s : List String) (x : String) : List String :=
  if s.contains x then s else s ++ [x]

/-- JS `Set.prototype.delete`. -/
def setDelete (s : List String) (x : String) : List String :=
  s.filter (fun y => !(y == x))

/-! ## Crypto model

`CryptoManager.calculateHash` (SHA-256 hex over a string), the JSON
serializations, and the eventual boolean resolution of the asynchronous
`CryptoUtils.verifySignature` are kept abstract: every claim here depends on
them only through equalities, never through their internal structure. -/

/-- A transaction (blockchain.js lines 172-180).  The JS fields `from` and
`to` are Lean keywords and are rendered `fromId`, `toId`. -/
structure Transaction where
  id : String
  fromId : String
  toId : String
  data : String
  amount : Int
  timestamp : Nat
  signature : Option String
deriving DecidableEq, Repr

/-- The object `validateTransaction` serializes and passes to
`verifySignature` (blockchain.js lines 249-255). -/
structure TxSigPayload where
  fromId : String
  toId : String
  data : String
  amount : Int
  timestamp : Nat
deriving DecidableEq, Repr

/-- The object `calculateBlockHash` serializes and hashes
(blockchain.js lines 507-514): all block fields except `hash`, `signature`. -/
structure BlockHashPayload where
  index : Nat
  timestamp : Nat
  transactions : List Transaction
  previousHash : String
  nonce : Nat
  author : String
deriving DecidableEq, Repr

/-- Abstract model of the crypto and serialization dependencies. -/
structure CryptoModel where
  /-- `crypto.calculateHash` on a raw string (SHA-256 hex). -/
  calcHash : String → String
  /-- `JSON.stringify` on a block-hash payload. -/
  stringifyBlock : BlockHashPayload → String
  /-- `JSON.stringify` on a transaction signing payload. -/
  stringifyTx : TxSigPayload → String
  /-- The boolean the promise returned by `CryptoUtils.verifySignature`
  (fileTransfer.js lines 539-559) would eventually resolve to, given
  (data, signature, publicKeyString). -/
  verifyResolved : String → String → String → Bool

/-- `CryptoUtils.verifySignature` is `async`, so calling it without `await`
yields a `Promise` object.  A `Promise` is truthy in every JS boolean
context regardless of the boolean it will later resolve to; the argument
records the discarded eventual resolution. -/
def jsPromiseTruthy : Bool → Bool := fun _ => true

/-! ## Ledger data model (blockchain.js) -/

/-- A block (blockchain.js lines 281-290). -/
structure Block where
  index : Nat
  timestamp : Nat
  transactions : List Transaction
  previousHash : String
  hash : String
  nonce : Nat
  author : String
  signature : Option String
deriving DecidableEq, Repr

/-- A vote (blockchain.js lines 350-355). -/
structure Vote where
  blockHash : String
  voter : String
  approve : Bool
  timestamp : Nat
deriving DecidableEq, Repr

/-- `consensusState` field values (blockchain.js line 16). -/
inductive ConsensusState where
  | idle
  | proposing
  | voting
deriving DecidableEq, Repr

/-- The chain-and-mempool portion of `BlockchainManager` state. -/
structure LedgerState where
  blockchain : List Block
  mempool : List (String × Transaction)
deriving DecidableEq, Repr

/-- The full modelled `BlockchainManager` state. -/
structure NodeState where
  ledger : LedgerState
  whitelistedPeers : List String
  currentLeader : Option String
  isLeader : Bool
  consensusState : ConsensusState
  pendingBlock : Option Block
  votes : List (String × List (String × Vote))
  minVotes : Nat
  nodeId : String
deriving DecidableEq, Repr

/-! ## Ledger operations -/

/-- The signing payload of a transaction (blockchain.js lines 249-255). -/
def txSigPayload (tx : Transaction) : TxSigPayload :=
  { fromId := tx.fromId, toId := tx.toId, data := tx.data
  , amount := tx.amount, timestamp := tx.timestamp }

/-- The hashed payload of a block (blockchain.js lines 507-514): `hash` and
`signature` excluded, transactions included by value. -/
def blockHashPayload (b : Block) : BlockHashPayload :=
  { index := b.index, timestamp := b.timestamp
  , transactions := b.transactions
  , previousHash := b.previousHash, nonce := b.nonce, author := b.author }

/-- `calculateBlockHash` (blockchain.js lines 506-517). -/
def calculateBlockHash (C : CryptoModel) (b : Block) : String :=
  C.calcHash (C.stringifyBlock (blockHashPayload b))

/-- `createGenesisBlock` (blockchain.js lines 49-60), parameterized by the
`Date.now()` value at creation. -/
def genesisBlock (C : CryptoModel) (t : Nat) : Block :=
  { index := 0, timestamp := t, transactions := [], previousHash := "0"
  , hash := C.calcHash "genesis", nonce := 0, author := "genesis", signature := none }

/-- `validateTransaction` (blockchain.js lines 240-265), at JS-truthiness
level: the signature branch returns the un-awaited promise of
`verifySignature`, which is truthy. -/
def validateTransaction (C : CryptoModel) (tx : Transaction) : Bool :=
  if tx.id = "" ∨ tx.fromId = "" ∨ tx.timestamp = 0 then false
  else
    match tx.signature with
    | none => true
    | some sig =>
      if sig = "" then true
      else jsPromiseTruthy (C.verifyResolved (C.stringifyTx (txSigPayload tx)) sig tx.fromId)

/-- The test `block.signature && !this.crypto.verifySignature(...)`
(blockchain.js line 487): the right conjunct negates a truthy promise. -/
def blockSignatureCheckFails (C : CryptoModel) (b : Block) : Bool :=
  match b.signature with
  | none => false
  | some sig =>
    !(sig == "") && !(jsPromiseTruthy (C.verifyResolved b.hash sig b.author))

/-- `validateBlock` (blockchain.js lines 461-503).  An empty chain makes the
JS code throw reading `previousBlock.hash` (caught, returning false); that
branch is unreachable because `!block.index` already rejected index 0. -/
def validateBlock (C : CryptoModel) (chain : List Block) (b : Block) : Bool :=
  if b.index = 0 ∨ b.timestamp = 0 ∨ b.hash = "" ∨ b.previousHash = "" then false
  else if b.index ≠ chain.length then false
  else
    match chain.getLast? with
    | none => false
    | some prev =>
      if b.previousHash ≠ prev.hash then false
      else if b.hash ≠ calculateBlockHash C b then false
      else if blockSignatureCheckFails C b then false
      else b.transactions.all (fun tx => validateTransaction C tx)

/-- Drop committed transaction ids from the mempool (blockchain.js
lines 444-446 and 568-571). -/
def purgeMempool (mempool : List (String × Transaction)) (txs : List Transaction) :
    List (String × Transaction) :=
  txs.foldl (fun m tx => mapDelete m tx.id) mempool

/-- `addBlock` (blockchain.js lines 433-458): final validation, append,
mempool purge; returns whether the block was appended. -/
def addBlock (C : CryptoModel) (s : LedgerState) (b : Block) : LedgerState × Bool :=
  if validateBlock C s.blockchain b then
    ({ blockchain := s.blockchain ++ [b]
     , mempool := purgeMempool s.mempool b.transactions }, true)
  else (s, false)

/-- One iteration of the `handleSyncResponse` loop (blockchain.js
lines 563-573): validate the block against the then-current chain, push it
and purge its transactions when valid, do nothing otherwise. -/
def applySyncBlock (C : CryptoModel) (st : LedgerState) (blk : Block) : LedgerState :=
  if validateBlock C st.blockchain blk then
    { blockchain := st.blockchain ++ [blk]
    , mempool := purgeMempool st.mempool blk.transactions }
  else st

/-- `handleSyncResponse` (blockchain.js lines 559-582): each received block
is validated against the then-current chain and pushed when valid; invalid
blocks are merely skipped by the loop. -/
def handleSyncResponse (C : CryptoModel) (s : LedgerState) (blocks : List Block) :
    LedgerState :=
  blocks.foldl (applySyncBlock C) s

/-- `handleTransaction` (blockchain.js lines 219-237). -/
def handleTransaction (C : CryptoModel) (s : LedgerState) (tx : Transaction) :
    LedgerState :=
  if ¬ validateTransaction C tx then s
  else if (s.mempool.lookup tx.id).isSome then s
  else { s with mempool := mapSet s.mempool tx.id tx }

/-- The state effect of `submitTransaction` (blockchain.js lines 197-216);
an invalid transaction throws, leaving the state unchanged. -/
def submitTransaction (C : CryptoModel) (s : LedgerState) (tx : Transaction) :
    LedgerState :=
  if ¬ validateTransaction C tx then s
  else { s with mempool := mapSet s.mempool tx.id tx }

/-- `recordVote` (blockchain.js lines 380-389). -/
def recordVote (s : NodeState) (v : Vote) : NodeState :=
  let blockVotes := (s.votes.lookup v.blockHash).getD []
  { s with votes := mapSet s.votes v.blockHash (mapSet blockVotes v.voter v) }

/-- `handleBlockVote` (blockchain.js lines 368-377). -/
def handleBlockVote (s : NodeState) (peerId : String) (v : Vote) : NodeState :=
  if s.whitelistedPeers.contains peerId then recordVote s v else s

/-- Approvals among a block's recorded votes (blockchain.js lines 405-414). -/
def approveCount (blockVotes : List (String × Vote)) : Nat :=
  (blockVotes.map (fun p => p.2)).countP (fun v => v.approve)

/-- `Math.max(this.minVotes, Math.ceil(this.whitelistedPeers.size / 2))`
(blockchain.js line 417); `Math.ceil (n / 2) = (n + 1) / 2` on naturals. -/
def requiredVotes (s : NodeState) : Nat :=
  max s.minVotes ((s.whitelistedPeers.length + 1) / 2)

/-- `finalizeBlock` (blockchain.js lines 392-430).  Note that the
early-return when no vote record exists for the pending hash resets
`consensusState` but does not clear `pendingBlock`. -/
def finalizeBlock (C : CryptoModel) (s : NodeState) : NodeState :=
  match s.pendingBlock with
  | none => { s with consensusState := .idle }
  | some pb =>
    match s.votes.lookup pb.hash with
    | none => { s with consensusState := .idle }
    | some blockVotes =>
      let s' :=
        if approveCount blockVotes ≥ requiredVotes s then
          { s with ledger := (addBlock C s.ledger pb).1 }
        else s
      { s' with pendingBlock := none, consensusState := .idle }

/-- `updateLeader` (blockchain.js lines 90-122), as a function of the
whitelist, the whole node state and the `Date.now()` value.  The leader
rotation interval is 30000 ms; `blockHeight` is `this.blockchain.length`. -/
def updateLeader (s : NodeState) (now : Nat) : NodeState :=
  if s.whitelistedPeers = [] then
    { s with currentLeader := none, isLeader := false }
  else
    let timeSlot := now / 30000
    let leaderIndex := (s.ledger.blockchain.length + timeSlot) % s.whitelistedPeers.length
    let newLeader := s.whitelistedPeers.getD leaderIndex ""
    { s with currentLeader := some newLeader, isLeader := newLeader = s.nodeId }

/-- The guard of the block-production timer callback (blockchain.js
lines 155-159): a tick proposes only when `isLeader` and consensus idle. -/
def blockProductionFires (s : NodeState) : Bool :=
  s.isLeader && s.consensusState == .idle

/-- `proposeBlock` (blockchain.js lines 268-323), parameterized by
`Date.now()` and by the (promise-wrapped, modelled as an opaque non-empty
string) result of `signData`. -/
def proposeBlock (C : CryptoModel) (s : NodeState) (now : Nat) (sig : String) :
    NodeState :=
  if s.consensusState ≠ .idle then s
  else
    match s.ledger.blockchain.getLast? with
    | none => { s with consensusState := .idle }
    | some prev =>
      let txs := (s.ledger.mempool.take 10).map (fun p => p.2)
      let nb0 : Block :=
        { index := prev.index + 1, timestamp := now, transactions := txs
        , previousHash := prev.hash, hash := "", nonce := 0
        , author := s.nodeId, signature := none }
      let nb := { nb0 with hash := calculateBlockHash C nb0, signature := some sig }
      let s1 := { s with consensusState := .proposing, pendingBlock := some nb
                       , votes := [] }
      recordVote s1 { blockHash := nb.hash, voter := s.nodeId
                    , approve := true, timestamp := now }

/-- `addWhitelistedPeer` (blockchain.js lines 63-67). -/
def addWhitelistedPeer (s : NodeState) (peerId : String) : NodeState :=
  { s with whitelistedPeers := setAdd s.whitelistedPeers peerId }

/-- `removeWhitelistedPeer` (blockchain.js lines 70-74). -/
def removeWhitelistedPeer (s : NodeState) (peerId : String) : NodeState :=
  { s with whitelistedPeers := setDelete s.whitelistedPeers peerId }

/-- The node state right after `initializeBlockchain` (blockchain.js
lines 37-46), parameterized by the genesis `Date.now()`. -/
def initialNodeState (C : CryptoModel) (nodeId : String) (t : Nat) : NodeState :=
  { ledger := { blockchain := [genesisBlock C t], mempool := [] }
  , whitelistedPeers := [], currentLeader := none, isLeader := false
  , consensusState := .idle, pendingBlock := none, votes := []
  , minVotes := 1, nodeId := nodeId }

/-! ## File transfer data model (fileTransfer.js) -/

/-- An entry of `availableFiles` (fileTransfer.js lines 98-106).  The JS
field `type` (a MIME type) is rendered `mimeType`. -/
structure AvailableFile where
  id : String
  name : String
  size : Nat
  mimeType : String
  hash : String
  peerId : String
  availableAt : Nat
deriving DecidableEq, Repr

/-- An entry of `downloadProgress` (fileTransfer.js line 126). -/
structure Progress where
  received : Nat
  total : Nat
deriving DecidableEq, Repr

/-- An entry of `activeDownloads` (fileTransfer.js lines 252-261).  Chunk
payloads are modelled as the byte lists their base64 encodings decode to. -/
structure DownloadInfo where
  fileId : String
  fileName : String
  fileSize : Nat
  fileType : String
  totalChunks : Nat
  chunkSize : Nat
  receivedChunks : List (Nat × List Nat)
  peerId : String
deriving DecidableEq, Repr

/-- Events emitted by `FileTransferManager` (the observable outcomes the
spec talks about). -/
inductive FTEvent where
  | fileAvailable (fileId : String)
  | downloadStarted (fileId : String)
  | downloadMetadata (fileId : String)
  | downloadProgressEv (fileId : String) (received total : Nat)
  | downloadCompleted (fileId : String) (bytes : List Nat)
  | downloadFailed (fileId : String)
deriving DecidableEq, Repr

/-- The modelled `FileTransferManager` state; `events` is the trace of
emissions so far. -/
structure FTState where
  availableFiles : List (String × AvailableFile)
  downloadProgress : List (String × Progress)
  activeTransfers : List String
  activeDownloads : List (String × DownloadInfo)
  events : List FTEvent
deriving DecidableEq, Repr

/-- `this.maxConcurrentTransfers` (fileTransfer.js line 11). -/
def maxConcurrentTransfers : Nat := 3

/-- `handleFileOffer` (fileTransfer.js lines 90-111): an offer whose id is
already known is ignored entirely (early return). -/
def handleFileOffer (s : FTState) (peerId fileId fileName : String)
    (fileSize : Nat) (fileType fileHash : String) (now : Nat) : FTState :=
  if (s.availableFiles.lookup fileId).isSome then s
  else
    let fi : AvailableFile :=
      { id := fileId, name := fileName, size := fileSize, mimeType := fileType
      , hash := fileHash, peerId := peerId, availableAt := now }
    { s with availableFiles := mapSet s.availableFiles fileId fi
           , events := s.events ++ [.fileAvailable fileId] }

/-- The synchronous error outcomes of `requestFile` (fileTransfer.js
lines 114-148). -/
inductive RequestError where
  | fileNotFound
  | tooManyTransfers
  | sendFailed
deriving DecidableEq, Repr

/-- `requestFile` (fileTransfer.js lines 114-148): unknown id throws first;
then the concurrency cap; then the transfer is registered and, should the
send fail, rolled back by the catch block.  `sendOk` is the boolean
`networkManager.sendToPeer` returns. -/
def requestFile (s : FTState) (fileId : String) (sendOk : Bool) :
    FTState × Except RequestError String :=
  match s.availableFiles.lookup fileId with
  | none => (s, .error .fileNotFound)
  | some fi =>
    if s.activeTransfers.length ≥ maxConcurrentTransfers then
      (s, .error .tooManyTransfers)
    else if sendOk then
      ({ s with activeTransfers := setAdd s.activeTransfers fileId
              , downloadProgress :=
                  mapSet s.downloadProgress fileId { received := 0, total := fi.size }
              , events := s.events ++ [.downloadStarted fileId] }, .ok fileId)
    else
      ({ s with activeTransfers := setDelete (setAdd s.activeTransfers fileId) fileId
              , downloadProgress :=
                  mapDelete (mapSet s.downloadProgress fileId
                    { received := 0, total := fi.size }) fileId },
       .error .sendFailed)

/-- `handleFileMetadata` (fileTransfer.js lines 249-267). -/
def handleFileMetadata (s : FTState) (peerId fileId fileName : String)
    (fileSize : Nat) (fileType : String) (totalChunks chunkSize : Nat) : FTState :=
  let di : DownloadInfo :=
    { fileId := fileId, fileName := fileName, fileSize := fileSize
    , fileType := fileType, totalChunks := totalChunks, chunkSize := chunkSize
    , receivedChunks := [], peerId := peerId }
  { s with activeDownloads := mapSet s.activeDownloads fileId di
         , events := s.events ++ [.downloadMetadata fileId] }

/-- The reassembly loop of `assembleFile` (fileTransfer.js lines 313-320):
chunk `i` for `i = 0, ..., totalChunks - 1`, in index order; a missing
chunk throws. -/
def collectChunks (m : List (Nat × List Nat)) (total : Nat) :
    Option (List (List Nat)) :=
  (List.range total).mapM (fun i => m.lookup i)

/-- `assembleFile` (fileTransfer.js lines 308-341).  On success the chunks
are concatenated in index order, the transfer is cleaned up and
`download-completed` is emitted; no hash of any kind is computed.  On a
missing chunk the catch block emits `download-failed` (and, having thrown
before the cleanup lines, leaves the transfer maps untouched). -/
def assembleFile (s : FTState) (di : DownloadInfo) : FTState :=
  match collectChunks di.receivedChunks di.totalChunks with
  | none => { s with events := s.events ++ [.downloadFailed di.fileId] }
  | some chunks =>
    { s with activeDownloads := mapDelete s.activeDownloads di.fileId
           , activeTransfers := setDelete s.activeTransfers di.fileId
           , downloadProgress := mapDelete s.downloadProgress di.fileId
           , events := s.events ++ [.downloadCompleted di.fileId chunks.flatten] }

/-- `handleFileChunk` (fileTransfer.js lines 270-305): store the chunk under
its index, add its byte length to the progress counter (when a progress
entry exists) emitting `download-progress`, and assemble once the received
map's size reaches `totalChunks`. -/
def handleFileChunk (s : FTState) (fileId : String) (chunkIndex : Nat)
    (chunkData : List Nat) : FTState :=
  match s.activeDownloads.lookup fileId with
  | none => s
  | some di =>
    let di1 := { di with receivedChunks := mapSet di.receivedChunks chunkIndex chunkData }
    let s1 := { s with activeDownloads := mapSet s.activeDownloads fileId di1 }
    let s2 :=
      match s1.downloadProgress.lookup fileId with
      | none => s1
      | some pr =>
        let pr1 := { pr with received := pr.received + chunkData.length }
        { s1 with downloadProgress := mapSet s1.downloadProgress fileId pr1
                , events := s1.events ++ [.downloadProgressEv fileId pr1.received pr1.total] }
    if mapSize di1.receivedChunks = di1.totalChunks then assembleFile s2 di1 else s2

/-- `cancelDownload` (fileTransfer.js lines 381-391). -/
def cancelDownload (s : FTState) (fileId : String) : FTState :=
  match s.activeDownloads.lookup fileId with
  | none => s
  | some _ =>
    { s with activeDownloads := mapDelete s.activeDownloads fileId
           , activeTransfers := setDelete s.activeTransfers fileId
           , downloadProgress := mapDelete s.downloadProgress fileId }

/-! ## Spec-side validation predicates (for comparison with the code)

These two definitions follow the words of the specification (§"Block
validation" and §"Transaction validity"), in which a present signature is
required to actually verify.  They exist to be compared with the code's
`validateTransaction` / `validateBlock` above. -/

/-- Transaction validity as the spec words it: fields present and, when a
signature is present, it verifies. -/
def specValidateTransaction (C : CryptoModel) (tx : Transaction) : Bool :=
  (!(tx.id == "") && !(tx.fromId == "") && !(tx.timestamp == 0)) &&
  (match tx.signature with
   | none => true
   | some sig => C.verifyResolved (C.stringifyTx (txSigPayload tx)) sig tx.fromId)

/-- Block validity as the spec words it: presence, extends the tip, hash
recomputes, a present signature verifies against the author, and every
transaction validates. -/
def specValidateBlock (C : CryptoModel) (chain : List Block) (b : Block) : Bool :=
  (!(b.index == 0) && !(b.timestamp == 0) && !(b.hash == "") && !(b.previousHash == "")) &&
  (b.index == chain.length) &&
  (match chain.getLast? with
   | none => false
   | some prev => b.previousHash == prev.hash) &&
  (b.hash == calculateBlockHash C b) &&
  (match b.signature with
   | none => true
   | some sig => C.verifyResolved b.hash sig b.author) &&
  b.transactions.all (fun tx => specValidateTransaction C tx)

/-! ## Basic lemmas about the embedded operations -/

theorem jsPromiseTruthy_eq_true (r : Bool) : jsPromiseTruthy r = true := rfl

/-- The signature guard of `validateBlock` can never fire: it negates the
truthiness of a promise. -/
theorem blockSignatureCheckFails_eq_false (C : CryptoModel) (b : Block) :
    blockSignatureCheckFails C b = false := by
  unfold blockSignatureCheckFails
  cases b.signature <;> simp [jsPromiseTruthy]

/-- `validateTransaction` reduces to presence of `id`, `from`, `timestamp`:
the signature branch returns a truthy promise unconditionally. -/
theorem validateTransaction_eq_presence (C : CryptoModel) (tx : Transaction) :
    validateTransaction C tx =
      (!(tx.id == "") && !(tx.fromId == "") && !(tx.timestamp == 0)) := by
  unfold validateTransaction
  split
  · rename_i h
    rcases h with h | h | h <;> simp [h]
  · rename_i h
    push_neg at h
    obtain ⟨h1, h2, h3⟩ := h
    rcases tx.signature with _ | sig
    · simp [h1, h2, h3]
    · split <;> simp [jsPromiseTruthy, h1, h2, h3]

/-- Full characterization of `validateBlock`: presence of the four fields,
extension of the tip, hash recomputation, and per-transaction field
presence.  The signature clause is absent because it can never reject. -/
theorem validateBlock_iff (C : CryptoModel) (chain : List Block) (b : Block) :
    validateBlock C chain b = true ↔
      (b.index ≠ 0 ∧ b.timestamp ≠ 0 ∧ b.hash ≠ "" ∧ b.previousHash ≠ "" ∧
       b.index = chain.length ∧
       (∃ prev, chain.getLast? = some prev ∧ b.previousHash = prev.hash) ∧
       b.hash = calculateBlockHash C b ∧
       ∀ tx ∈ b.transactions, tx.id ≠ "" ∧ tx.fromId ≠ "" ∧ tx.timestamp ≠ 0) := by
  unfold validateBlock
  rcases hl : chain.getLast? with _ | prev
  · simp only [hl]
    split_ifs <;>
      · simp only [false_iff]
        rintro ⟨-, -, -, -, -, ⟨p, hp, -⟩, -, -⟩
        exact hp.elim
  · simp only [hl, blockSignatureCheckFails_eq_false, Bool.false_eq_true, if_false]
    split_ifs with h1 h2 h3 h4
    · simp only [false_iff]
      rintro ⟨c1, c2, c3, c4, -, -, -, -⟩
      rcases h1 with h | h | h | h
      · exact c1 h
      · exact c2 h
      · exact c3 h
      · exact c4 h
    · simp only [false_iff]
      rintro ⟨-, -, -, -, c5, -, -, -⟩
      exact h2 c5
    · simp only [false_iff]
      rintro ⟨-, -, -, -, -, ⟨p, hp, hph⟩, -, -⟩
      cases hp
      exact h3 hph
    · simp only [false_iff]
      rintro ⟨-, -, -, -, -, -, c7, -⟩
      exact h4 c7
    · push_neg at h1
      obtain ⟨n1, n2, n3, n4⟩ := h1
      push_neg at h2 h3 h4
      simp only [List.all_eq_true, validateTransaction_eq_presence]
      constructor
      · intro htx
        refine ⟨n1, n2, n3, n4, h2, ⟨prev, rfl, h3⟩, h4, ?_⟩
        intro tx hmem
        have hx := htx tx hmem
        simp at hx
        tauto
      · rintro ⟨-, -, -, -, -, -, -, htx⟩
        intro tx hmem
        obtain ⟨e1, e2, e3⟩ := htx tx hmem
        simp [e1, e2, e3]

/-- Two booleans agreeing as propositions are equal. -/
theorem bool_eq_of_iff {x y : Bool} (h : x = true ↔ y = true) : x = y := by
  cases x <;> cases y <;> simp_all

/-- `validateBlock` only depends on the hash side of the crypto model. -/
theorem validateBlock_congr (C C' : CryptoModel) (hc : C.calcHash = C'.calcHash)
    (hs : C.stringifyBlock = C'.stringifyBlock) (chain : List Block) (b : Block) :
    validateBlock C chain b = validateBlock C' chain b := by
  apply bool_eq_of_iff
  rw [validateBlock_iff, validateBlock_iff]
  have hh : calculateBlockHash C b = calculateBlockHash C' b := by
    unfold calculateBlockHash
    rw [hc, hs]
  rw [hh]

/-! ## Concrete test fixtures (for counterexamples and witnesses) -/

/-- A concrete crypto model whose verifier always resolves to `false`. -/
def cexCrypto : CryptoModel :=
  { calcHash := fun _ => "HASH"
  , stringifyBlock := fun _ => "BLOCKJSON"
  , stringifyTx := fun _ => "TXJSON"
  , verifyResolved := fun _ _ _ => false }

/-- A one-block chain: just the genesis block created at time 1000. -/
def cexChain : List Block := [genesisBlock cexCrypto 1000]

/-- A block extending `cexChain`, carrying a signature that does NOT verify
under `cexCrypto` (its verifier always resolves `false`). -/
def cexSignedBlock : Block :=
  { index := 1, timestamp := 2000, transactions := [], previousHash := "HASH"
  , hash := "HASH", nonce := 0, author := "AUTHOR", signature := some "BADSIG" }

/-- C2 counterexample: `validateBlock` accepts a block whose present
signature does not verify against its author, so acceptance is NOT
equivalent to the claimed conjunction (whose signature clause fails here):
`specValidateBlock`, the claim's predicate, rejects the same block. -/
theorem validateBlock_cex :
    validateBlock cexCrypto cexChain cexSignedBlock = true ∧
    cexSignedBlock.signature = some "BADSIG" ∧
    cexCrypto.verifyResolved cexSignedBlock.hash "BADSIG" cexSignedBlock.author = false ∧
    specValidateBlock cexCrypto cexChain cexSignedBlock = false := by
  refine ⟨?_, rfl, rfl, ?_⟩ <;> decide

/-- C2 (amended): block validation accepts exactly when index, timestamp,
hash and previous-hash are present (non-zero, non-empty), the block extends
the tip (`index = current height`, `previousHash = tip.hash`), the
recomputed hash matches, and every contained transaction has `id`, `from`
and `timestamp` present; the signature clause never rejects because the
asynchronous verifier's promise is truthy. -/
theorem validateBlock_accepts_iff (C : CryptoModel) (chain : List Block) (b : Block) :
    validateBlock C chain b = true ↔
      (b.index ≠ 0 ∧ b.timestamp ≠ 0 ∧ b.hash ≠ "" ∧ b.previousHash ≠ "" ∧
       b.index = chain.length ∧
       (∃ prev, chain.getLast? = some prev ∧ b.previousHash = prev.hash) ∧
       b.hash = calculateBlockHash C b ∧
       ∀ tx ∈ b.transactions, tx.id ≠ "" ∧ tx.fromId ≠ "" ∧ tx.timestamp ≠ 0) :=
  validateBlock_iff C chain b

/-- C10: neither transaction validation nor block validation depends on
whether a signature actually verifies.  (1) Two field-present transactions
differing only in their present signature bytes validate identically, under
arbitrary (even different) verifier resolutions.  (2) `validateBlock` is
unchanged under any substitution of the verifier's resolution.  (3)
`validateBlock` cannot reject a signed block on signature grounds: deleting
the signature never changes the verdict. -/
theorem signature_outcome_independent :
    (∀ (C1 C2 : CryptoModel) (tx1 tx2 : Transaction) (s1 s2 : String),
        tx1.id ≠ "" → tx1.fromId ≠ "" → tx1.timestamp ≠ 0 →
        tx1.signature = some s1 → tx2 = { tx1 with signature := some s2 } →
        validateTransaction C1 tx1 = validateTransaction C2 tx2) ∧
    (∀ (C : CryptoModel) (v1 v2 : String → String → String → Bool)
        (chain : List Block) (b : Block),
        validateBlock { C with verifyResolved := v1 } chain b =
          validateBlock { C with verifyResolved := v2 } chain b) ∧
    (∀ (C : CryptoModel) (chain : List Block) (b : Block),
        validateBlock C chain b = validateBlock C chain { b with signature := none }) := by
  refine ⟨?_, ?_, ?_⟩
  · intro C1 C2 tx1 tx2 s1 s2 h1 h2 h3 hs1 hs2
    subst hs2
    rw [validateTransaction_eq_presence, validateTransaction_eq_presence]
  · intro C v1 v2 chain b
    exact validateBlock_congr _ _ rfl rfl chain b
  · intro C chain b
    apply bool_eq_of_iff
    rw [validateBlock_iff, validateBlock_iff]
    have hh : calculateBlockHash C b = calculateBlockHash C { b with signature := none } := rfl
    rw [hh]

/-- Witness for C10 at a concrete input: two transactions that differ only
in their signature bytes, checked under opposite verifier resolutions. -/
theorem signature_outcome_independent_witness :
    validateTransaction cexCrypto
        { id := "t1", fromId := "A", toId := "B", data := "d", amount := 0
        , timestamp := 5, signature := some "S1" } =
      validateTransaction { cexCrypto with verifyResolved := fun _ _ _ => true }
        { id := "t1", fromId := "A", toId := "B", data := "d", amount := 0
        , timestamp := 5, signature := some "S2" } :=
  signature_outcome_independent.1 cexCrypto
    { cexCrypto with verifyResolved := fun _ _ _ => true }
    _ _ "S1" "S2" (by decide) (by decide) (by decide) rfl rfl

/-- C5: with a non-empty whitelist `W` (insertion order, length `n`), the
leader computed at time `now` and chain height `h = blockchain.length` is
`W[(h + now / 30000) % n]`; with an empty whitelist there is no leader, the
node is not leader, and the block-production guard cannot fire. -/
theorem leader_schedule_correct (s : NodeState) (now : Nat) :
    (∀ hne : s.whitelistedPeers ≠ [],
        (updateLeader s now).currentLeader =
          some (s.whitelistedPeers.get
            ⟨(s.ledger.blockchain.length + now / 30000) % s.whitelistedPeers.length,
             Nat.mod_lt _ (List.length_pos.mpr hne)⟩)) ∧
    (s.whitelistedPeers = [] →
        (updateLeader s now).currentLeader = none ∧
        (updateLeader s now).isLeader = false ∧
        blockProductionFires (updateLeader s now) = false) := by
  constructor
  · intro hne
    unfold updateLeader
    rw [if_neg hne]
    have hlt : (s.ledger.blockchain.length + now / 30000) % s.whitelistedPeers.length <
        s.whitelistedPeers.length :=
      Nat.mod_lt _ (List.length_pos.mpr hne)
    simp only [Option.some_inj]
    rw [List.getD_eq_getElem _ _ hlt]
    simp [List.get_eq_getElem]
  · intro he
    unfold updateLeader blockProductionFires
    rw [if_pos he]
    simp

/-- A concrete node state with whitelist `["A", "B", "C"]` and height 1. -/
def cexLeaderState : NodeState :=
  { ledger := { blockchain := cexChain, mempool := [] }
  , whitelistedPeers := ["A", "B", "C"], currentLeader := none, isLeader := false
  , consensusState := .idle, pendingBlock := none, votes := []
  , minVotes := 1, nodeId := "SELF" }

/-- Witness for C5: at `now = 45000` (slot 1) and height 1 the leader is
`W[(1 + 1) % 3] = "C"`; and the empty-whitelist branch at the initial
state yields no leader and no production. -/
theorem leader_schedule_correct_witness :
    (updateLeader cexLeaderState 45000).currentLeader = some "C" ∧
    (updateLeader (initialNodeState cexCrypto "SELF" 0) 45000).currentLeader = none := by
  constructor
  · have h := (leader_schedule_correct cexLeaderState 45000).1 (by decide)
    rw [h]
    decide
  · exact ((leader_schedule_correct (initialNodeState cexCrypto "SELF" 0) 45000).2 rfl).1

/-! ## Chain invariants (reachable states) -/

/-- The chain invariant: the head is a genesis block and every later block
links to its predecessor and carries its own position as `index`. -/
def ChainInv (C : CryptoModel) (l : List Block) : Prop :=
  (∃ t, l.head? = some (genesisBlock C t)) ∧
  ∀ i : Nat, 0 < i → ∀ bi bp : Block, l[i]? = some bi → l[i - 1]? = some bp →
    bi.previousHash = bp.hash ∧ bi.index = i

/-- Appending a block that passes `validateBlock` preserves the invariant. -/
theorem chainInv_append {C : CryptoModel} {l : List Block} {b : Block}
    (hinv : ChainInv C l) (hv : validateBlock C l b = true) :
    ChainInv C (l ++ [b]) := by
  obtain ⟨⟨t, hhead⟩, hlink⟩ := hinv
  obtain ⟨-, -, -, -, hidx, ⟨prev, hlast, hprev⟩, -, -⟩ := (validateBlock_iff C l b).mp hv
  have hlnil : l ≠ [] := by
    intro h
    rw [h] at hhead
    exact Option.noConfusion hhead
  have hlpos : 0 < l.length := List.length_pos.mpr hlnil
  constructor
  · refine ⟨t, ?_⟩
    rcases l with _ | ⟨a, as⟩
    · exact absurd rfl hlnil
    · simpa using hhead
  · intro i hi bi bp hbi hbp
    have hbi_lt : i < l.length + 1 := by
      obtain ⟨hw, -⟩ := List.getElem?_eq_some_iff.mp hbi
      simpa using hw
    by_cases hcase : i < l.length
    · rw [List.getElem?_append_left hcase] at hbi
      rw [List.getElem?_append_left (by omega)] at hbp
      exact hlink i hi bi bp hbi hbp
    · have hieq : i = l.length := by omega
      subst hieq
      rw [List.getElem?_concat_length] at hbi
      have hbi2 : b = bi := by injection hbi
      subst hbi2
      rw [List.getElem?_append_left (by omega)] at hbp
      have hlast2 : l.getLast? = some prev := hlast
      rw [List.getLast?_eq_getElem?] at hlast2
      rw [hlast2] at hbp
      have hbp2 : prev = bp := by injection hbp
      subst hbp2
      exact ⟨hprev, hidx⟩

/-- `addBlock` preserves the chain invariant. -/
theorem chainInv_addBlock {C : CryptoModel} {s : LedgerState} {b : Block}
    (h : ChainInv C s.blockchain) : ChainInv C ((addBlock C s b).1).blockchain := by
  unfold addBlock
  split
  · exact chainInv_append h (by assumption)
  · exact h

/-- One sync-loop iteration preserves the chain invariant. -/
theorem chainInv_applySyncBlock {C : CryptoModel} {st : LedgerState} {blk : Block}
    (h : ChainInv C st.blockchain) : ChainInv C (applySyncBlock C st blk).blockchain := by
  unfold applySyncBlock
  split
  · exact chainInv_append h (by assumption)
  · exact h

/-- `handleSyncResponse` preserves the chain invariant. -/
theorem chainInv_handleSyncResponse (C : CryptoModel) (blocks : List Block) :
    ∀ s : LedgerState, ChainInv C s.blockchain →
      ChainInv C (handleSyncResponse C s blocks).blockchain := by
  induction blocks with
  | nil => intro s h; exact h
  | cons b rest ih =>
    intro s h
    exact ih (applySyncBlock C s b) (chainInv_applySyncBlock h)

/-- `addBlock` only ever appends. -/
theorem prefix_addBlock (C : CryptoModel) (s : LedgerState) (b : Block) :
    s.blockchain <+: ((addBlock C s b).1).blockchain := by
  unfold addBlock
  split
  · exact ⟨[b], rfl⟩
  · exact List.prefix_refl _

/-- A sync-loop iteration only ever appends. -/
theorem prefix_applySyncBlock (C : CryptoModel) (st : LedgerState) (blk : Block) :
    st.blockchain <+: (applySyncBlock C st blk).blockchain := by
  unfold applySyncBlock
  split
  · exact ⟨[blk], rfl⟩
  · exact List.prefix_refl _

/-- `handleSyncResponse` only ever appends. -/
theorem prefix_handleSyncResponse (C : CryptoModel) (blocks : List Block) :
    ∀ s : LedgerState, s.blockchain <+: (handleSyncResponse C s blocks).blockchain := by
  induction blocks with
  | nil => intro s; exact List.prefix_refl _
  | cons b rest ih =>
    intro s
    exact (prefix_applySyncBlock C s b).trans (ih (applySyncBlock C s b))

/-- `handleTransaction` never touches the chain. -/
theorem handleTransaction_blockchain (C : CryptoModel) (l : LedgerState)
    (tx : Transaction) : (handleTransaction C l tx).blockchain = l.blockchain := by
  unfold handleTransaction
  split
  · rfl
  · split <;> rfl

/-- `submitTransaction` never touches the chain. -/
theorem submitTransaction_blockchain (C : CryptoModel) (l : LedgerState)
    (tx : Transaction) : (submitTransaction C l tx).blockchain = l.blockchain := by
  unfold submitTransaction
  split <;> rfl

/-- `updateLeader` never touches the ledger. -/
theorem updateLeader_ledger (s : NodeState) (now : Nat) :
    (updateLeader s now).ledger = s.ledger := by
  unfold updateLeader
  split <;> rfl

/-- `handleBlockVote` never touches the ledger. -/
theorem handleBlockVote_ledger (s : NodeState) (p : String) (v : Vote) :
    (handleBlockVote s p v).ledger = s.ledger := by
  unfold handleBlockVote
  split <;> rfl

/-- `proposeBlock` never touches the ledger. -/
theorem proposeBlock_ledger (C : CryptoModel) (s : NodeState) (now : Nat)
    (sig : String) : (proposeBlock C s now sig).ledger = s.ledger := by
  unfold proposeBlock
  split
  · rfl
  · split <;> rfl

/-- `finalizeBlock` only ever appends to the chain. -/
theorem prefix_finalizeBlock (C : CryptoModel) (s : NodeState) :
    s.ledger.blockchain <+: (finalizeBlock C s).ledger.blockchain := by
  unfold finalizeBlock
  split
  · exact List.prefix_refl _
  · split
    · exact List.prefix_refl _
    · dsimp only
      split
      · exact prefix_addBlock C s.ledger _
      · exact List.prefix_refl _

/-- `finalizeBlock` preserves the chain invariant. -/
theorem chainInv_finalizeBlock {C : CryptoModel} {s : NodeState}
    (h : ChainInv C s.ledger.blockchain) :
    ChainInv C (finalizeBlock C s).ledger.blockchain := by
  unfold finalizeBlock
  split
  · exact h
  · split
    · exact h
    · dsimp only
      split
      · exact chainInv_addBlock h
      · exact h

/-- One state-mutating operation of the modelled `BlockchainManager`. -/
inductive NodeStep (C : CryptoModel) : NodeState → NodeState → Prop where
  | stepAddBlock (s : NodeState) (b : Block) :
      NodeStep C s { s with ledger := (addBlock C s.ledger b).1 }
  | stepSync (s : NodeState) (blocks : List Block) :
      NodeStep C s { s with ledger := handleSyncResponse C s.ledger blocks }
  | stepHandleTx (s : NodeState) (tx : Transaction) :
      NodeStep C s { s with ledger := handleTransaction C s.ledger tx }
  | stepSubmitTx (s : NodeState) (tx : Transaction) :
      NodeStep C s { s with ledger := submitTransaction C s.ledger tx }
  | stepFinalize (s : NodeState) : NodeStep C s (finalizeBlock C s)
  | stepPropose (s : NodeState) (now : Nat) (sig : String) :
      NodeStep C s (proposeBlock C s now sig)
  | stepRecordVote (s : NodeState) (v : Vote) : NodeStep C s (recordVote s v)
  | stepHandleVote (s : NodeState) (p : String) (v : Vote) :
      NodeStep C s (handleBlockVote s p v)
  | stepUpdateLeader (s : NodeState) (now : Nat) : NodeStep C s (updateLeader s now)
  | stepAddWhitelisted (s : NodeState) (p : String) :
      NodeStep C s (addWhitelistedPeer s p)
  | stepRemoveWhitelisted (s : NodeState) (p : String) :
      NodeStep C s (removeWhitelistedPeer s p)

/-- States reachable from a freshly initialized node by the modelled
operations. -/
inductive ReachableNode (C : CryptoModel) : NodeState → Prop where
  | init (nodeId : String) (t : Nat) : ReachableNode C (initialNodeState C nodeId t)
  | step {s s' : NodeState} : ReachableNode C s → NodeStep C s s' → ReachableNode C s'

/-- Every operation leaves the previous chain as a prefix of the new one. -/
theorem nodeStep_prefix {C : CryptoModel} {s s' : NodeState} (h : NodeStep C s s') :
    s.ledger.blockchain <+: s'.ledger.blockchain := by
  cases h with
  | stepAddBlock b => exact prefix_addBlock C s.ledger b
  | stepSync blocks => exact prefix_handleSyncResponse C blocks s.ledger
  | stepHandleTx tx =>
    rw [show ({ s with ledger := handleTransaction C s.ledger tx } : NodeState).ledger.blockchain
        = s.ledger.blockchain from handleTransaction_blockchain C s.ledger tx]
  | stepSubmitTx tx =>
    rw [show ({ s with ledger := submitTransaction C s.ledger tx } : NodeState).ledger.blockchain
        = s.ledger.blockchain from submitTransaction_blockchain C s.ledger tx]
  | stepFinalize => exact prefix_finalizeBlock C s
  | stepPropose now sig => rw [proposeBlock_ledger C s now sig]
  | stepRecordVote v => exact List.prefix_refl _
  | stepHandleVote p v => rw [handleBlockVote_ledger s p v]
  | stepUpdateLeader now => rw [updateLeader_ledger s now]
  | stepAddWhitelisted p => exact List.prefix_refl _
  | stepRemoveWhitelisted p => exact List.prefix_refl _

/-- Every operation preserves the chain invariant. -/
theorem nodeStep_chainInv {C : CryptoModel} {s s' : NodeState} (h : NodeStep C s s')
    (hinv : ChainInv C s.ledger.blockchain) : ChainInv C s'.ledger.blockchain := by
  cases h with
  | stepAddBlock b => exact chainInv_addBlock hinv
  | stepSync blocks => exact chainInv_handleSyncResponse C blocks s.ledger hinv
  | stepHandleTx tx =>
    rw [show ({ s with ledger := handleTransaction C s.ledger tx } : NodeState).ledger.blockchain
        = s.ledger.blockchain from handleTransaction_blockchain C s.ledger tx]
    exact hinv
  | stepSubmitTx tx =>
    rw [show ({ s with ledger := submitTransaction C s.ledger tx } : NodeState).ledger.blockchain
        = s.ledger.blockchain from submitTransaction_blockchain C s.ledger tx]
    exact hinv
  | stepFinalize => exact chainInv_finalizeBlock hinv
  | stepPropose now sig =>
    rw [show (proposeBlock C s now sig).ledger.blockchain = s.ledger.blockchain from
        congrArg LedgerState.blockchain (proposeBlock_ledger C s now sig)]
    exact hinv
  | stepRecordVote v => exact hinv
  | stepHandleVote p v =>
    rw [show (handleBlockVote s p v).ledger.blockchain = s.ledger.blockchain from
        congrArg LedgerState.blockchain (handleBlockVote_ledger s p v)]
    exact hinv
  | stepUpdateLeader now =>
    rw [show (updateLeader s now).ledger.blockchain = s.ledger.blockchain from
        congrArg LedgerState.blockchain (updateLeader_ledger s now)]
    exact hinv
  | stepAddWhitelisted p => exact hinv
  | stepRemoveWhitelisted p => exact hinv

/-- C4: in every reachable node state, the chain starts at the genesis
block, every later block links to its predecessor (`previousHash` equals
the predecessor's `hash`) and carries its position as `index`; and every
operation leaves the old chain as a prefix of the new one (append-only, so
the length is monotonically non-decreasing and no block is removed or
replaced). -/
theorem chain_invariants (C : CryptoModel) (s : NodeState) (h : ReachableNode C s) :
    (∃ t, s.ledger.blockchain.head? = some (genesisBlock C t)) ∧
    (∀ i : Nat, 0 < i → ∀ bi bp : Block,
        s.ledger.blockchain[i]? = some bi → s.ledger.blockchain[i - 1]? = some bp →
        bi.previousHash = bp.hash ∧ bi.index = i) ∧
    (∀ s' : NodeState, NodeStep C s s' →
        s.ledger.blockchain <+: s'.ledger.blockchain) := by
  have hinv : ChainInv C s.ledger.blockchain := by
    induction h with
    | init nodeId t =>
      constructor
      · exact ⟨t, rfl⟩
      · intro i hi bi bp hbi hbp
        rcases i with _ | j
        · omega
        · simp [initialNodeState] at hbi
    | step hs hstep ih => exact nodeStep_chainInv hstep ih
  exact ⟨hinv.1, hinv.2, fun s' hstep => nodeStep_prefix hstep⟩

/-- Witness for C4 at a concrete reachable state (fresh node, one committed
block step). -/
theorem chain_invariants_witness :
    (∃ t, (initialNodeState cexCrypto "N" 7).ledger.blockchain.head?
        = some (genesisBlock cexCrypto t)) ∧
    (∀ i : Nat, 0 < i → ∀ bi bp : Block,
        (initialNodeState cexCrypto "N" 7).ledger.blockchain[i]? = some bi →
        (initialNodeState cexCrypto "N" 7).ledger.blockchain[i - 1]? = some bp →
        bi.previousHash = bp.hash ∧ bi.index = i) ∧
    (∀ s' : NodeState, NodeStep cexCrypto (initialNodeState cexCrypto "N" 7) s' →
        (initialNodeState cexCrypto "N" 7).ledger.blockchain <+: s'.ledger.blockchain) :=
  chain_invariants cexCrypto (initialNodeState cexCrypto "N" 7)
    (ReachableNode.init "N" 7)

/-! ## Finalization (C3) -/

/-- C3 (amended): when `finalize` runs with a pending block, then (a) if a
vote record exists for its hash, the block is committed (appended) iff the
approvals reach `max(min_votes, ceil(|W|/2))` AND the block passes the
re-validation inside `addBlock`; in that case — commit or drop alike —
`pending_block` is cleared and the state returns to Idle; (b) if no vote
record exists, the block is dropped and the state returns to Idle, but
`pending_block` is NOT cleared. -/
theorem finalize_commit_rule (C : CryptoModel) (s : NodeState) (pb : Block)
    (hpb : s.pendingBlock = some pb) :
    (s.votes.lookup pb.hash = none →
        finalizeBlock C s = { s with consensusState := .idle }) ∧
    (∀ bv, s.votes.lookup pb.hash = some bv →
        (finalizeBlock C s).pendingBlock = none ∧
        (finalizeBlock C s).consensusState = .idle ∧
        ((finalizeBlock C s).ledger.blockchain = s.ledger.blockchain ++ [pb] ↔
            (approveCount bv ≥ requiredVotes s ∧
             validateBlock C s.ledger.blockchain pb = true)) ∧
        ((approveCount bv < requiredVotes s ∨
          validateBlock C s.ledger.blockchain pb = false) →
            (finalizeBlock C s).ledger = s.ledger)) := by
  unfold finalizeBlock
  simp only [hpb]
  rcases hlk : s.votes.lookup pb.hash with _ | bv
  · simp only [hlk]
    refine ⟨fun _ => trivial, fun bv hbv => Option.noConfusion hbv⟩
  · simp only [hlk]
    refine ⟨fun h => Option.noConfusion h, ?_⟩
    intro bv' hbv'
    have hbv2 : bv = bv' := by injection hbv'
    subst hbv2
    refine ⟨trivial, trivial, ?_, ?_⟩
    · by_cases hc : approveCount bv ≥ requiredVotes s
      · rw [if_pos hc]
        by_cases hv : validateBlock C s.ledger.blockchain pb = true
        · unfold addBlock
          rw [if_pos hv]
          exact ⟨fun _ => ⟨hc, hv⟩, fun _ => rfl⟩
        · unfold addBlock
          rw [if_neg hv]
          constructor
          · intro h
            exfalso
            have := congrArg List.length h
            simp at this
          · rintro ⟨-, hvv⟩
            exact absurd hvv hv
      · rw [if_neg hc]
        constructor
        · intro h
          exfalso
          have := congrArg List.length h
          simp at this
        · rintro ⟨hcc, -⟩
          exact absurd hcc hc
    · intro h
      by_cases hc : approveCount bv ≥ requiredVotes s
      · rw [if_pos hc]
        rcases h with h | h
        · omega
        · have hv : ¬ validateBlock C s.ledger.blockchain pb = true := by
            rw [h]
            exact Bool.false_ne_true
          unfold addBlock
          rw [if_neg hv]
      · rw [if_neg hc]

/-- A node state mid-proposal whose `votes` map has NO record for the
pending block's hash (so the recorded approvals for it number zero, below
the quorum of one). -/
def cexFinalizeState : NodeState :=
  { ledger := { blockchain := cexChain, mempool := [] }
  , whitelistedPeers := ["W1"], currentLeader := none, isLeader := false
  , consensusState := .proposing, pendingBlock := some cexSignedBlock, votes := []
  , minVotes := 1, nodeId := "W1" }

/-- C3 counterexample: in the drop case with no vote record, `finalize`
returns to Idle but does NOT clear `pending_block`, contradicting the claim
that `pending_block` is cleared in both the commit and the drop case. -/
theorem finalize_cex :
    cexFinalizeState.pendingBlock = some cexSignedBlock ∧
    approveCount ((cexFinalizeState.votes.lookup cexSignedBlock.hash).getD []) <
      requiredVotes cexFinalizeState ∧
    (finalizeBlock cexCrypto cexFinalizeState).consensusState = .idle ∧
    (finalizeBlock cexCrypto cexFinalizeState).pendingBlock = some cexSignedBlock :=
  ⟨rfl, by decide, rfl, rfl⟩

/-- Like `cexFinalizeState` but with a recorded self-approval, reaching the
quorum `max(1, ceil(1/2)) = 1`. -/
def cexFinalizeVoted : NodeState :=
  { cexFinalizeState with votes :=
      [(cexSignedBlock.hash,
        [("W1", { blockHash := cexSignedBlock.hash, voter := "W1"
                , approve := true, timestamp := 1 })])] }

/-- Witness for C3 (amended) at a concrete input: one approval meets the
quorum of one and the valid pending block is committed, clearing the
pending block and returning to Idle. -/
theorem finalize_commit_rule_witness :
    (finalizeBlock cexCrypto cexFinalizeVoted).pendingBlock = none ∧
    (finalizeBlock cexCrypto cexFinalizeVoted).consensusState = .idle ∧
    (finalizeBlock cexCrypto cexFinalizeVoted).ledger.blockchain =
      cexFinalizeVoted.ledger.blockchain ++ [cexSignedBlock] := by
  have h := (finalize_commit_rule cexCrypto cexFinalizeVoted cexSignedBlock rfl).2 _ rfl
  exact ⟨h.1, h.2.1, h.2.2.1.mpr ⟨by decide, by decide⟩⟩

/-! ## Association-list lemmas -/

/-- After `mapSet m k v`, looking up `k` yields `v`. -/
theorem lookup_mapSet {α β : Type} [BEq α] [LawfulBEq α]
    (m : List (α × β)) (k : α) (v : β) : (mapSet m k v).lookup k = some v := by
  induction m with
  | nil => simp [mapSet, List.lookup]
  | cons p rest ih =>
    obtain ⟨k', v'⟩ := p
    unfold mapSet
    by_cases h : (k' == k) = true
    · rw [if_pos h]
      simp [List.lookup]
    · rw [if_neg h]
      have hne : ¬ k' = k := by simpa using h
      have h2 : (k == k') = false :=
        beq_eq_false_iff_ne.mpr (fun he => hne he.symm)
      simp only [List.lookup, h2]
      exact ih

/-- Setting a key to the value it already maps to leaves the map unchanged
(a JS `Map.set` with an identical value is a no-op). -/
theorem mapSet_of_lookup_eq {α β : Type} [BEq α] [LawfulBEq α]
    (m : List (α × β)) (k : α) (v : β) (h : m.lookup k = some v) :
    mapSet m k v = m := by
  induction m with
  | nil => simp [List.lookup] at h
  | cons p rest ih =>
    obtain ⟨k', v'⟩ := p
    unfold mapSet
    by_cases hk : (k' == k) = true
    · rw [if_pos hk]
      have hk2 : k' = k := eq_of_beq hk
      subst hk2
      simp [List.lookup] at h
      rw [h]
    · rw [if_neg hk]
      have hne : ¬ k' = k := by simpa using hk
      have h2 : (k == k') = false :=
        beq_eq_false_iff_ne.mpr (fun he => hne he.symm)
      simp only [List.lookup, h2] at h
      rw [ih h]

/-! ## File offers (C6) -/

/-- An empty `FileTransferManager` state. -/
def cexFTEmpty : FTState :=
  { availableFiles := [], downloadProgress := [], activeTransfers := []
  , activeDownloads := [], events := [] }

/-- C6 counterexample: two peers advertise the same file id; the stored
advertiser after the second offer is still the FIRST peer, not the most
recent one. -/
theorem fileOffer_cex :
    ((handleFileOffer (handleFileOffer cexFTEmpty "P1" "f" "doc" 10 "text" "H" 1)
          "P2" "f" "doc" 10 "text" "H" 2).availableFiles.lookup "f").map
        AvailableFile.peerId = some "P1" ∧
    "P1" ≠ "P2" :=
  ⟨rfl, by decide⟩

/-- C6 (amended): remote offers are keyed by file id and the FIRST
advertiser wins: an offer for an already-known id is ignored entirely
(the state, including the stored advertiser, is unchanged), while an offer
for an unknown id records the offering peer as its advertiser. -/
theorem fileOffer_first_advertiser_wins (s : FTState) (p fid n : String)
    (sz : Nat) (mt h : String) (now : Nat) :
    ((s.availableFiles.lookup fid).isSome →
        handleFileOffer s p fid n sz mt h now = s) ∧
    (s.availableFiles.lookup fid = none →
        ((handleFileOffer s p fid n sz mt h now).availableFiles.lookup fid).map
            AvailableFile.peerId = some p) := by
  constructor
  · intro hk
    unfold handleFileOffer
    rw [if_pos hk]
  · intro hk
    unfold handleFileOffer
    rw [if_neg (by simp [hk])]
    simp [lookup_mapSet]

/-- Witness for C6 (amended): a repeated offer is dropped; a fresh offer
records its advertiser. -/
theorem fileOffer_first_advertiser_wins_witness :
    (handleFileOffer (handleFileOffer cexFTEmpty "P1" "g" "doc" 10 "text" "H" 1)
        "P2" "g" "doc" 10 "text" "H" 2) =
      handleFileOffer cexFTEmpty "P1" "g" "doc" 10 "text" "H" 1 ∧
    ((handleFileOffer cexFTEmpty "P1" "g" "doc" 10 "text" "H" 1).availableFiles.lookup
        "g").map AvailableFile.peerId = some "P1" := by
  constructor
  · exact (fileOffer_first_advertiser_wins
      (handleFileOffer cexFTEmpty "P1" "g" "doc" 10 "text" "H" 1)
      "P2" "g" "doc" 10 "text" "H" 2).1 (by decide)
  · exact (fileOffer_first_advertiser_wins cexFTEmpty "P1" "g" "doc" 10 "text" "H" 1).2 rfl

/-! ## Download cap (C8) -/

/-- A known remote file offer used in concrete download scenarios. -/
def cexOffer : AvailableFile :=
  { id := "f", name := "n", size := 9, mimeType := "t", hash := "H"
  , peerId := "P", availableAt := 0 }

/-- A state with three active transfers and no known offers. -/
def cexFTBusy : FTState :=
  { availableFiles := [], downloadProgress := [], activeTransfers := ["a", "b", "c"]
  , activeDownloads := [], events := [] }

/-- `cexFTBusy`, but with `cexOffer` known. -/
def cexFTBusyKnown : FTState :=
  { cexFTBusy with availableFiles := [("f", cexOffer)] }

/-- A state knowing `cexOffer` with two active transfers. -/
def cexFTTwoActive : FTState :=
  { cexFTEmpty with
      availableFiles := [("f", cexOffer)]
      activeTransfers := ["a", "b"] }

/-- C8 counterexample: with 3 transfers already active, a `requestFile` call
on an UNKNOWN id fails with FileNotFound — not with TooManyTransfers as the
claim requires of every call made while 3 transfers are active. -/
theorem requestFile_cex :
    cexFTBusy.activeTransfers.length = 3 ∧
    (requestFile cexFTBusy "x" true).2 = Except.error RequestError.fileNotFound ∧
    (Except.error RequestError.fileNotFound : Except RequestError String) ≠
      Except.error RequestError.tooManyTransfers := by
  refine ⟨rfl, rfl, ?_⟩
  intro h
  injection h with h2
  exact RequestError.noConfusion h2

/-- C8 (amended): the 3-download cap is maintained by `requestFile`; a call
on a KNOWN offer while at least 3 transfers are active fails synchronously
with TooManyTransfers and changes nothing; a call on an unknown id fails
with FileNotFound and changes nothing; and a successful call on a known
offer ends with exactly the requested transfer added. -/
theorem requestFile_cap (s : FTState) (fid : String) (sendOk : Bool) :
    (s.activeTransfers.length ≤ 3 →
        (requestFile s fid sendOk).1.activeTransfers.length ≤ 3) ∧
    (∀ fi, s.availableFiles.lookup fid = some fi →
        s.activeTransfers.length ≥ 3 →
        requestFile s fid sendOk = (s, Except.error RequestError.tooManyTransfers)) ∧
    (s.availableFiles.lookup fid = none →
        requestFile s fid sendOk = (s, Except.error RequestError.fileNotFound)) ∧
    (∀ fi, s.availableFiles.lookup fid = some fi →
        s.activeTransfers.length < 3 → sendOk = true →
        (requestFile s fid sendOk).2 = Except.ok fid ∧
        (requestFile s fid sendOk).1.activeTransfers = setAdd s.activeTransfers fid ∧
        (fid ∉ s.activeTransfers →
          (requestFile s fid sendOk).1.activeTransfers = s.activeTransfers ++ [fid])) := by
  refine ⟨?_, ?_, ?_, ?_⟩
  · intro hle
    unfold requestFile
    rcases hfi : s.availableFiles.lookup fid with _ | fi
    · exact hle
    · simp only
      by_cases hcap : s.activeTransfers.length ≥ maxConcurrentTransfers
      · rw [if_pos hcap]
        exact hle
      · rw [if_neg hcap]
        have hlt : s.activeTransfers.length < 3 := by
          simpa [maxConcurrentTransfers] using hcap
        by_cases hs : sendOk = true
        · rw [if_pos hs]
          show (setAdd s.activeTransfers fid).length ≤ 3
          unfold setAdd
          split
          · omega
          · simp only [List.length_append, List.length_cons, List.length_nil]
            omega
        · rw [if_neg hs]
          show (setDelete (setAdd s.activeTransfers fid) fid).length ≤ 3
          calc (setDelete (setAdd s.activeTransfers fid) fid).length
              ≤ (setAdd s.activeTransfers fid).length := List.length_filter_le _ _
            _ ≤ 3 := by
                unfold setAdd
                split
                · omega
                · simp only [List.length_append, List.length_cons, List.length_nil]
                  omega
  · intro fi hfi hge
    unfold requestFile
    simp only [hfi]
    rw [if_pos (by simpa [maxConcurrentTransfers] using hge)]
  · intro hfi
    unfold requestFile
    simp only [hfi]
  · intro fi hfi hlt hs
    subst hs
    unfold requestFile
    simp only [hfi]
    rw [if_neg (by simpa [maxConcurrentTransfers] using Nat.not_le.mpr hlt)]
    rw [if_pos trivial]
    refine ⟨rfl, rfl, ?_⟩
    intro hnotin
    show setAdd s.activeTransfers fid = s.activeTransfers ++ [fid]
    unfold setAdd
    rw [if_neg (by simpa using hnotin)]

/-- Witness for C8 (amended) at concrete inputs: a known offer with 3
active transfers is refused with TooManyTransfers; with 2 active transfers
the call succeeds and registers exactly that transfer. -/
theorem requestFile_cap_witness :
    requestFile cexFTBusyKnown "f" true =
      (cexFTBusyKnown, Except.error RequestError.tooManyTransfers) ∧
    (requestFile cexFTTwoActive "f" true).1.activeTransfers = ["a", "b", "f"] := by
  constructor
  · exact (requestFile_cap cexFTBusyKnown "f" true).2.1 cexOffer rfl (by decide)
  · exact (((requestFile_cap cexFTTwoActive "f" true).2.2.2 cexOffer rfl (by decide)
      rfl).2.2 (by decide)).trans (by decide)

/-! ## Reassembly and chunk handling (C1, C9) -/

/-- Option-`mapM` over a list whose elements all map to `some`. -/
theorem mapM_eq_some_map {α β : Type} (g : α → Option β) (f : α → β) :
    ∀ l : List α, (∀ a ∈ l, g a = some (f a)) → l.mapM g = some (l.map f) := by
  intro l
  induction l with
  | nil => intro _; rfl
  | cons a rest ih =>
    intro h
    have ha := h a (List.mem_cons_self a rest)
    have hr := ih (fun x hx => h x (List.mem_cons_of_mem a hx))
    rw [List.mapM_cons, ha, hr]
    rfl

/-- A concrete stand-in byte-level SHA-256, used only to exhibit a hash
mismatch the code never looks at. -/
def cexByteHash : List Nat → String := fun _ => "HX"

/-- A download expecting a single chunk. -/
def cexDI : DownloadInfo :=
  { fileId := "f", fileName := "n", fileSize := 3, fileType := "t"
  , totalChunks := 1, chunkSize := 65536, receivedChunks := [], peerId := "P" }

/-- A mid-download state whose file-offer advertises hash "HY". -/
def cexFTDownloading : FTState :=
  { availableFiles := [("f", { cexOffer with hash := "HY", size := 3 })]
  , downloadProgress := [("f", { received := 0, total := 3 })]
  , activeTransfers := ["f"]
  , activeDownloads := [("f", cexDI)]
  , events := [] }

/-- C1 counterexample: the final chunk completes a transfer whose assembled
bytes hash to "HX" while the original offer advertised "HY"; the code still
emits `download-completed` (with the assembled bytes) and never emits
`download-failed` — no integrity check exists. -/
theorem integrity_cex :
    ((cexFTDownloading.availableFiles.lookup "f").map AvailableFile.hash
        = some "HY") ∧
    cexByteHash [1, 2, 3] ≠ "HY" ∧
    (handleFileChunk cexFTDownloading "f" 0 [1, 2, 3]).events.contains
        (FTEvent.downloadCompleted "f" [1, 2, 3]) = true ∧
    (handleFileChunk cexFTDownloading "f" 0 [1, 2, 3]).events.contains
        (FTEvent.downloadFailed "f") = false := by
  refine ⟨rfl, by decide, by decide, by decide⟩

/-- C1 (amended): once all `totalChunks` chunks are present, `assembleFile`
concatenates them in ascending index order, cleans up the transfer, and
emits the result as `download-completed` — unconditionally: no hash of the
assembled bytes is computed and no comparison with the offered hash takes
place, so no IntegrityFailure/`download-failed` path exists for a hash
mismatch. -/
theorem assembleFile_no_hash_check (s : FTState) (di : DownloadInfo)
    (f : Nat → List Nat)
    (hall : ∀ i, i < di.totalChunks → di.receivedChunks.lookup i = some (f i)) :
    (assembleFile s di).events =
      s.events ++ [FTEvent.downloadCompleted di.fileId
        (((List.range di.totalChunks).map f).flatten)] ∧
    (assembleFile s di).activeDownloads = mapDelete s.activeDownloads di.fileId ∧
    (assembleFile s di).activeTransfers = setDelete s.activeTransfers di.fileId ∧
    (assembleFile s di).downloadProgress = mapDelete s.downloadProgress di.fileId := by
  have hcol : collectChunks di.receivedChunks di.totalChunks =
      some ((List.range di.totalChunks).map f) := by
    unfold collectChunks
    exact mapM_eq_some_map _ f _ (fun i hi =>
      hall i (List.mem_range.mp hi))
  unfold assembleFile
  simp only [hcol]
  refine ⟨?_, ?_, ?_, ?_⟩ <;> trivial

/-- Witness for C1 (amended): assembling a two-chunk transfer emits the
in-order concatenation as completed. -/
theorem assembleFile_no_hash_check_witness :
    (assembleFile cexFTEmpty
        { cexDI with
            totalChunks := 2
            receivedChunks := [(1, [3, 4]), (0, [1, 2])] }).events =
      [FTEvent.downloadCompleted "f" [1, 2, 3, 4]] := by
  have h := (assembleFile_no_hash_check cexFTEmpty
      { cexDI with
          totalChunks := 2
          receivedChunks := [(1, [3, 4]), (0, [1, 2])] }
      (fun i => if i = 0 then [1, 2] else [3, 4])
      (by decide)).1
  rw [h]
  decide

/-- A download expecting two chunks, none received yet. -/
def cexDITwo : DownloadInfo :=
  { cexDI with totalChunks := 2 }

/-- A mid-download state for `cexDITwo` with a progress entry. -/
def cexFTDupBase : FTState :=
  { availableFiles := [], downloadProgress := [("f", { received := 0, total := 200 })]
  , activeTransfers := ["f"], activeDownloads := [("f", cexDITwo)], events := [] }

/-- C9 counterexample: receiving the same chunk (index 0, bytes [9, 9])
twice leaves the received-chunk map unchanged, but the reported progress
counter doubles from 2 to 4 bytes — the transfer state after the duplicate
differs from the state after the first copy. -/
theorem chunk_duplicate_cex :
    ((handleFileChunk cexFTDupBase "f" 0 [9, 9]).activeDownloads.lookup "f").map
        DownloadInfo.receivedChunks =
      ((handleFileChunk (handleFileChunk cexFTDupBase "f" 0 [9, 9]) "f" 0
          [9, 9]).activeDownloads.lookup "f").map DownloadInfo.receivedChunks ∧
    (handleFileChunk cexFTDupBase "f" 0 [9, 9]).downloadProgress.lookup "f" =
      some { received := 2, total := 200 } ∧
    (handleFileChunk (handleFileChunk cexFTDupBase "f" 0 [9, 9]) "f" 0
        [9, 9]).downloadProgress.lookup "f" =
      some { received := 4, total := 200 } := by
  refine ⟨by decide, by decide, by decide⟩

/-- C9 (amended): a duplicate chunk (same index and bytes, arriving before
completion) leaves the received-chunk map unchanged and does not retrigger
assembly, but it increments the byte counter again and emits another
`download-progress` event — the reported progress is NOT idempotent; and a
chunk for an unknown or already-completed (hence removed) transfer is
ignored with no state change at all. -/
theorem chunk_duplicate_semantics (s : FTState) (fid : String) (idx : Nat)
    (data : List Nat) (di : DownloadInfo) (pr : Progress)
    (hdi : s.activeDownloads.lookup fid = some di)
    (hdup : di.receivedChunks.lookup idx = some data)
    (hsz : mapSize di.receivedChunks ≠ di.totalChunks)
    (hpr : s.downloadProgress.lookup fid = some pr) :
    ((handleFileChunk s fid idx data).activeDownloads.lookup fid).map
        DownloadInfo.receivedChunks = some di.receivedChunks ∧
    (handleFileChunk s fid idx data).downloadProgress.lookup fid =
      some { received := pr.received + data.length, total := pr.total } ∧
    (handleFileChunk s fid idx data).events =
      s.events ++ [FTEvent.downloadProgressEv fid (pr.received + data.length)
        pr.total] ∧
    (∀ fid2 idx2 data2, s.activeDownloads.lookup fid2 = none →
        handleFileChunk s fid2 idx2 data2 = s) := by
  have hset : mapSet di.receivedChunks idx data = di.receivedChunks :=
    mapSet_of_lookup_eq _ _ _ hdup
  have key : handleFileChunk s fid idx data =
      { s with downloadProgress := mapSet s.downloadProgress fid
                 { received := pr.received + data.length, total := pr.total }
             , events := s.events ++ [FTEvent.downloadProgressEv fid
                 (pr.received + data.length) pr.total] } := by
    unfold handleFileChunk
    simp only [hdi, hset, hpr, mapSet_of_lookup_eq s.activeDownloads fid di hdi]
    rw [if_neg hsz]
  rw [key]
  refine ⟨?_, ?_, rfl, ?_⟩
  · simp [hdi]
  · exact lookup_mapSet _ _ _
  · intro fid2 idx2 data2 hnone
    unfold handleFileChunk
    simp only [hnone]

/-- Witness for C9 (amended) at the concrete duplicate-delivery input. -/
theorem chunk_duplicate_semantics_witness :
    ((handleFileChunk (handleFileChunk cexFTDupBase "f" 0 [9, 9]) "f" 0
        [9, 9]).activeDownloads.lookup "f").map DownloadInfo.receivedChunks =
      some [(0, [9, 9])] ∧
    (handleFileChunk (handleFileChunk cexFTDupBase "f" 0 [9, 9]) "f" 0
        [9, 9]).downloadProgress.lookup "f" =
      some { received := 4, total := 200 } := by
  have h := chunk_duplicate_semantics (handleFileChunk cexFTDupBase "f" 0 [9, 9])
      "f" 0 [9, 9] { cexDITwo with receivedChunks := [(0, [9, 9])] }
      { received := 2, total := 200 } (by decide) (by decide) (by decide) (by decide)
  exact ⟨h.1, h.2.1⟩

/-! ## Sync-response application (C7) -/

/-- A structurally invalid block (its `index` is 0, which the presence
check rejects). -/
def cexBadBlock : Block :=
  { index := 0, timestamp := 5, transactions := [], previousHash := "HASH"
  , hash := "HASH", nonce := 0, author := "X", signature := none }

/-- A genesis-only ledger. -/
def cexLedger : LedgerState := { blockchain := cexChain, mempool := [] }

/-- C7 counterexample: in the batch `[invalid, valid]`, the invalid block
does not abort the application — the valid block positioned AFTER the first
invalid one is still appended to the chain. -/
theorem syncResponse_cex :
    validateBlock cexCrypto cexLedger.blockchain cexBadBlock = false ∧
    (handleSyncResponse cexCrypto cexLedger [cexBadBlock, cexSignedBlock]).blockchain
      = cexChain ++ [cexSignedBlock] := by
  exact ⟨by decide, by decide⟩

/-- C7 (amended): sync-response blocks are applied in order, each validated
against the then-current tip; an invalid block is skipped — it is never
appended and leaves the chain unchanged — but the batch is NOT aborted: the
remaining blocks are processed exactly as if the invalid block were absent,
while a valid block is appended (with its transactions purged from the
mempool) before the rest is processed. -/
theorem syncResponse_per_block (C : CryptoModel) (s : LedgerState) (b : Block)
    (rest : List Block) :
    (validateBlock C s.blockchain b = false →
        handleSyncResponse C s (b :: rest) = handleSyncResponse C s rest) ∧
    (validateBlock C s.blockchain b = true →
        handleSyncResponse C s (b :: rest) =
          handleSyncResponse C
            { blockchain := s.blockchain ++ [b]
            , mempool := purgeMempool s.mempool b.transactions } rest) := by
  constructor
  · intro h
    show handleSyncResponse C (applySyncBlock C s b) rest = _
    rw [show applySyncBlock C s b = s from by
      unfold applySyncBlock
      rw [if_neg (by simp [h])]]
  · intro h
    show handleSyncResponse C (applySyncBlock C s b) rest = _
    rw [show applySyncBlock C s b =
        { blockchain := s.blockchain ++ [b]
        , mempool := purgeMempool s.mempool b.transactions } from by
      unfold applySyncBlock
      rw [if_pos h]]

/-- Witness for C7 (amended) at concrete inputs: an invalid head block is
skipped, a valid head block is appended, in both cases continuing with the
remaining batch. -/
theorem syncResponse_per_block_witness :
    handleSyncResponse cexCrypto cexLedger [cexBadBlock] =
      handleSyncResponse cexCrypto cexLedger [] ∧
    handleSyncResponse cexCrypto cexLedger [cexSignedBlock] =
      handleSyncResponse cexCrypto
        { blockchain := cexLedger.blockchain ++ [cexSignedBlock]
        , mempool := purgeMempool cexLedger.mempool cexSignedBlock.transactions }
        [] := by
  constructor
  · exact (syncResponse_per_block cexCrypto cexLedger cexBadBlock []).1 (by decide)
  · exact (syncResponse_per_block cexCrypto cexLedger cexSignedBlock []).2 (by decide)

/-- Witness for C2 (amended) at a concrete input: the characterization
applied to a concrete block extending the genesis chain. -/
theorem validateBlock_accepts_iff_witness :
    validateBlock cexCrypto cexChain cexSignedBlock = true :=
  (validateBlock_accepts_iff cexCrypto cexChain cexSignedBlock).mpr
    ⟨by decide, by decide, by decide, by decide, by decide,
     ⟨genesisBlock cexCrypto 1000, rfl, rfl⟩, rfl, by
       intro tx htx
       simp [cexSignedBlock] at htx⟩

end P2pME
